import Mathlib

/-
Verification of the servhttp package (github.com/caledfwlch1/servhttp).

The repository contains two near-identical revisions of one Go file:
  * src/serv.go            -- the current revision (namespace Serv below);
  * src/unnamed/part_000   -- an earlier revision (namespace Part0 below).

The definitions below are a shallow embedding of those files.  Go durations
(time.Duration, an int64 of nanoseconds) become Int; a Go pointer that may be
nil becomes an Option; the buffered error channel becomes an explicit list
bounded by its capacity; the interleaving of the listener goroutine with the
shutdown coordinator becomes a labelled transition system.  External
collaborators (net/http, autocert) appear only through the behaviour the
embedded code observes of them, documented at each definition.
-/

/-- Go time.Duration is an int64 count of nanoseconds; time.Second is 1e9. -/
def second : Int := 1000000000

/-- Go time.Minute. -/
def minute : Int := 60 * second

/-- Model of a Go log.Logger value (src uses log.New(os.Stdout, pfx, flags)).
Only the identity of the logger matters to the claims, so we keep the
constructor arguments that the repository passes. -/
structure GoLogger where
  tag : String
  flags : Nat
deriving DecidableEq

/-- Go log.LstdFlags = Ldate | Ltime = 1 ||| 2 = 3. -/
def lstdFlags : Nat := 3

/-- Go map assignment h[k] = v on the entries of one map object: overwrite
the entry for k if present, otherwise append it. -/
def assocUpdate {α : Type} : List (String × α) → String → α → List (String × α)
  | [], k, v => [(k, v)]
  | (k', v') :: rest, k, v =>
      if k' = k then (k, v) :: rest else (k', v') :: assocUpdate rest k v

/-- Go map read m[k]. -/
def assocLookup {α : Type} : List (String × α) → String → Option α
  | [], _ => none
  | (k', v') :: rest, k => if k' = k then some v' else assocLookup rest k

namespace Serv

/-- The logger built in src/serv.go line 35:
log.New(os.Stdout, "http: ", log.LstdFlags). -/
def defaultLogger : GoLogger := ⟨"http: ", lstdFlags⟩

/-- Shallow embedding of the ServHTTP struct of src/serv.go lines 20-31
together with the embedded http.Server fields set by New.  Embedded pointers
(*log.Logger) become Options; Stop is make(chan error, 1), so we record its
capacity.  The router and handler are modelled separately (see ServState)
because they carry a type parameter for abstract handler results. -/
structure ServHTTP where
  logger : Option GoLogger
  addr : String
  errorLog : Option GoLogger
  readTimeout : Int
  writeTimeout : Int
  idleTimeout : Int
  stopCap : Nat
  timeoutShutdown : Int
deriving DecidableEq

/-- src/serv.go lines 34-52: New(listenAddr) builds the server with the
stdout logger, 5s/10s/15s timeouts, a one-slot Stop channel and a one
minute shutdown timeout. -/
def New (listenAddr : String) : ServHTTP :=
  { logger := some defaultLogger
    addr := listenAddr
    errorLog := some defaultLogger
    readTimeout := 5 * second
    writeTimeout := 10 * second
    idleTimeout := 15 * second
    stopCap := 1
    timeoutShutdown := minute }

/-- src/serv.go lines 83-91: Config overwrites the logger only when the
argument is non-nil and the shutdown timeout only when it is non-zero. -/
def Config (s : ServHTTP) (logger : Option GoLogger) (timeout : Int) : ServHTTP :=
  let s1 := if logger ≠ none then { s with logger := logger } else s
  if timeout ≠ 0 then { s1 with timeoutShutdown := timeout } else s1

/-- Models the registration contract of the net/http ServeMux that the
router of serv.go delegates to (line 36: http.NewServeMux), exactly as
net/http documents it: Handle panics when the pattern is empty and panics
with "http: multiple registrations for <pattern>" when a handler is
already registered for the pattern; otherwise the pattern maps to the
handler.  A Go panic is the error case of the model; the registration
state is the entries of the mux. -/
def serveMuxHandle {α : Type} (m : List (String × α)) (pattern : String)
    (handler : α) : Except String (List (String × α)) :=
  if pattern = "" then Except.error "http: invalid pattern"
  else if (assocLookup m pattern).isSome then
    Except.error ("http: multiple registrations for " ++ pattern)
  else Except.ok (assocUpdate m pattern handler)

/-- src/serv.go lines 55-57: AddHandle registers the handler on s.router
by calling ServeMux.Handle. -/
def AddHandle {α : Type} (router : List (String × α)) (pattern : String)
    (handler : α) : Except String (List (String × α)) :=
  serveMuxHandle router pattern handler

/-- src/serv.go lines 60-62: AddHandleFunc registers the function on
s.router via ServeMux.HandleFunc, which wraps it as a Handler and calls
Handle. -/
def AddHandleFunc {α : Type} (router : List (String × α)) (pattern : String)
    (handler : α) : Except String (List (String × α)) :=
  serveMuxHandle router pattern handler

/-- An incoming HTTP request as observed by the embedded code: AddAuthFunc
reads only r.URL.Path; the rest of the *http.Request is abstracted into an
opaque component so that auth predicates may depend on more than the path. -/
structure Request where
  urlPath : String
  extra : Nat
deriving DecidableEq

/-- What a handler writes to the ResponseWriter, abstractly: either the
redirect written by the middleware (http.Redirect with a status code and a
target URL) or an arbitrary result of the underlying handler. -/
inductive Resp (α : Type) where
  | redirect (status : Nat) (url : String)
  | result (a : α)
deriving DecidableEq

/-- net/http constant http.StatusTemporaryRedirect. -/
def statusTemporaryRedirect : Nat := 307

/-- The server together with its installed top-level handler (the s.Handler
field read and written by AddAuthFunc, src/serv.go lines 66-67). -/
structure ServState (α : Type) where
  base : ServHTTP
  handler : Request → Resp α

/-- src/serv.go lines 65-75: AddAuthFunc saves the current s.Handler and
installs a closure that redirects (307) to redirectUrl whenever the request
path differs from redirectUrl and f rejects the request, and otherwise runs
the saved handler. -/
def AddAuthFunc {α : Type} (s : ServState α) (f : Request → Bool)
    (redirectUrl : String) : ServState α :=
  { s with handler := fun r =>
      if (r.urlPath != redirectUrl) && (!(f r)) then
        Resp.redirect statusTemporaryRedirect redirectUrl
      else
        s.handler r }

/-- The listening mode selected by ServeAutoCert: a plain listener on the
configured address, or a TLS listener on that address gated by a host
policy. -/
inductive ListenerMode where
  | plainHTTP (addr : String)
  | autoTLS (addr : String) (hostPolicy : String → Bool)

/-- Models autocert.HostWhitelist (golang.org/x/crypto/acme/autocert), as
the embedded code relies on it: the returned policy authorizes exactly the
listed host names and rejects every other host at the TLS layer. -/
def hostWhitelist (domains : List String) : String → Bool :=
  fun h => domains.contains h

/-- src/serv.go lines 119-133: with no domains ServeAutoCert calls
ListenAndServe on the configured address; otherwise it builds an
autocert.Manager whose HostPolicy is HostWhitelist(domains...) and calls
ListenAndServeTLS.  We record the selected listening mode. -/
def ServeAutoCert (s : ServHTTP) (domains : List String) : ListenerMode :=
  if domains.length = 0 then
    ListenerMode.plainHTTP s.addr
  else
    ListenerMode.autoTLS s.addr (hostWhitelist domains)

/-- The two event sources raced by Shutdown (src/serv.go lines 98-102):
an error delivered on the Stop channel, or an OS termination signal. -/
inductive Ev where
  | listenErr (e : String)
  | osSignal
deriving DecidableEq

/-- The externally visible actions Shutdown performs, in order: receiving
from a channel, logging, and the call to the embedded http.Server.Shutdown
(the graceful-stop / drain sequence). -/
inductive SAct where
  | recvStop (e : String)
  | recvQuit
  | logMsg (m : String)
  | callServerShutdown
deriving DecidableEq

/-- src/serv.go lines 94-115, as a function of the event that wins the
select and of the outcome of the embedded http.Server.Shutdown call
(none: all connections drained before the deadline; some e: the call
reported error e, per its contract the context deadline error).  Returns
the ordered action trace and the error result.  fmt.Errorf("listen: %v\n")
and fmt.Errorf("server shutdown: %s") become string concatenation. -/
def shutdownServ : Ev → Option String → List SAct × Option String
  | Ev.listenErr e, _ =>
      ([SAct.recvStop e], some ("listen: " ++ e ++ "\n"))
  | Ev.osSignal, some e =>
      ([SAct.recvQuit, SAct.logMsg "server shutdown ...", SAct.callServerShutdown],
       some ("server shutdown: " ++ e))
  | Ev.osSignal, none =>
      ([SAct.recvQuit, SAct.logMsg "server shutdown ...", SAct.callServerShutdown,
        SAct.logMsg "server shut down"],
       none)

/-- How the process ends: normally, or through log.Fatalln (log the message
and exit non-zero). -/
inductive ProcExit where
  | normal
  | fatal (msg : String)
deriving DecidableEq

/-- src/serv.go lines 136-146: ServeAndShutdown runs Shutdown and calls
s.Fatalln on a non-nil error, otherwise returns normally. -/
def serveAndShutdownServ (winner : Ev) (drain : Option String) : ProcExit :=
  match (shutdownServ winner drain).2 with
  | some e => ProcExit.fatal e
  | none => ProcExit.normal

end Serv

namespace Part0

/-- src/unnamed/part_000 lines 16-21: the earlier revision of the struct;
New receives the logger and the shutdown timeout as arguments. -/
structure ServHTTP where
  logger : Option GoLogger
  addr : String
  errorLog : Option GoLogger
  readTimeout : Int
  writeTimeout : Int
  idleTimeout : Int
  timeoutServerShutdown : Int
deriving DecidableEq

/-- src/unnamed/part_000 lines 25-37: New stores the given logger and
timeout verbatim, with no default substitution for nil or zero. -/
def New (logger : Option GoLogger) (listenAddr : String)
    (timeoutShutdown : Int) : ServHTTP :=
  { logger := logger
    addr := listenAddr
    errorLog := logger
    readTimeout := 5 * second
    writeTimeout := 10 * second
    idleTimeout := 15 * second
    timeoutServerShutdown := timeoutShutdown }

end Part0

/-- A heap of Go map objects (map[string]T values), indexed by allocation
order.  Go maps are reference values: a HandlerMap variable is either nil
(none) or a reference (some loc) into this heap.  Entries are kept as an
association list with distinct keys. -/
abbrev Heap (α : Type) : Type := List (List (String × α))

/-- Read the map object at a location. -/
def heapGet {α : Type} (σ : Heap α) (l : Nat) : Option (List (String × α)) :=
  σ.get? l

/-- Replace the map object at a location. -/
def heapSet {α : Type} (σ : Heap α) (l : Nat) (m : List (String × α)) : Heap α :=
  σ.set l m

namespace HandlerMap

/-- src/unnamed/part_000 lines 39-41: NewHandler() allocates a fresh empty
map and returns its reference. -/
def NewHandler {α : Type} (σ : Heap α) : Heap α × Nat :=
  (σ ++ [[]], σ.length)

/-- src/unnamed/part_000 lines 43-48: Add receives the map header by value;
if it is nil it rebinds the local copy to a fresh map (the caller keeps
nil), then performs h[pattern] = handler through the local reference.
Assignment through a dangling reference cannot occur in Go; it is an error
case of the model.  The result is the updated heap; the caller-side map
variable is never changed (Go passes the header by value). -/
def Add {α : Type} (σ : Heap α) (h : Option Nat) (pattern : String)
    (handler : α) : Except String (Heap α) :=
  let alloc : Heap α × Nat :=
    match h with
    | none => NewHandler σ
    | some l => (σ, l)
  match heapGet alloc.1 alloc.2 with
  | some entries => Except.ok (heapSet alloc.1 alloc.2 (assocUpdate entries pattern handler))
  | none => Except.error "invalid map reference"

end HandlerMap

/-- The entries `for pattern, handler := range handlers` visits: ranging
over a nil map visits nothing (src/unnamed/part_000 lines 105-112). -/
def rangeEntries {α : Type} (σ : Heap α) (h : Option Nat) : List (String × α) :=
  match h with
  | none => []
  | some l => (heapGet σ l).getD []

/-- src/unnamed/part_000 lines 105-112: HandlersRegistration builds a fresh
ServeMux, registers every entry of the map on it and installs it as
s.Handler.  Since map keys are distinct, the resulting per-pattern dispatch
is the lookup of the registered pattern in the entries. -/
def HandlersRegistration {α : Type} (σ : Heap α) (h : Option Nat) :
    String → Option α :=
  fun pattern => assocLookup (rangeEntries σ h) pattern

/-- The listener goroutine of ServeAndShutdown (src/unnamed/part_000 lines
96-98): it is serving, or ServeAutoCert has returned an error not yet sent
on the stop channel, or the send has completed and the goroutine is done. -/
inductive LState where
  | serving
  | returned (e : String)
  | done
deriving DecidableEq

/-- The program counter of the coordinator (src/unnamed/part_000 lines
50-73): blocked in the select; received a stop error; received the quit
signal; logged and cancelled after quit; inside the http.Server.Shutdown
call; returned with a result. -/
inductive CState where
  | waiting
  | afterStop (e : String)
  | afterQuit
  | cancelledQuit
  | draining
  | finished (res : Option String)
deriving DecidableEq

/-- Capacity of the stop channel: make(chan error, 1) (src/serv.go line 49
and src/unnamed/part_000 line 94). -/
def stopChanCap : Nat := 1

/-- The error net/http returns from ListenAndServe once Shutdown is called. -/
def errServerClosed : String := "http: Server closed"

/-- Joint state of the listener goroutine and the coordinator: listener
phase, contents of the one-slot stop channel, whether an OS signal is
deliverable, whether the cancel function of the context created in
ServeAndShutdown has been invoked, the coordinator phase, and whether
http.Server.Shutdown has been called. -/
structure Sys where
  listener : LState
  stopBuf : List String
  quit : Bool
  cancelled : Bool
  coord : CState
  shutdownCalled : Bool
deriving DecidableEq

/-- Initial state of ServeAndShutdown: listener serving, empty channel,
no pending signal, context not cancelled, coordinator entering the select. -/
def initSys : Sys :=
  { listener := LState.serving
    stopBuf := []
    quit := false
    cancelled := false
    coord := CState.waiting
    shutdownCalled := false }

/-- Labels of the transitions: listener failure, listener closed by the
graceful stop, the send on the stop channel, arrival of an OS signal, and
the coordinator actions of src/unnamed/part_000 lines 50-73. -/
inductive L where
  | listenFail (e : String)
  | closedByShutdown
  | sendStop (e : String)
  | sigArrive
  | recvStop (e : String)
  | recvQuit
  | stopReturn (e : String)
  | quitLogCancel
  | startDrain
  | drainOk
  | drainTimeout
deriving DecidableEq

/-- One interleaving step of the listener goroutine, the OS signal source
and the coordinator of src/unnamed/part_000 (ServeAndShutdown plus
Shutdown).  Listener: ServeAutoCert may fail on its own at any time while
serving; once http.Server.Shutdown has been called it returns
http.ErrServerClosed; a returned error is sent on the stop channel only if
the buffer has a free slot (capacity stopChanCap).  Coordinator: the select
consumes one stop error or one quit signal; the stop branch invokes cancel
and returns the wrapped listen error; the quit branch logs, invokes cancel,
then calls http.Server.Shutdown, which either drains in time (nil) or
reports the context deadline error.  No transition reads the cancelled
flag: the context created in ServeAndShutdown is discarded and reaches no
other component. -/
inductive Step : Sys → L → Sys → Prop where
  | listenFail (s : Sys) (e : String) (h : s.listener = LState.serving) :
      Step s (L.listenFail e) { s with listener := LState.returned e }
  | closedByShutdown (s : Sys) (h : s.listener = LState.serving)
      (h2 : s.shutdownCalled = true) :
      Step s L.closedByShutdown { s with listener := LState.returned errServerClosed }
  | sendStop (s : Sys) (e : String) (h : s.listener = LState.returned e)
      (h2 : s.stopBuf.length < stopChanCap) :
      Step s (L.sendStop e)
        { s with listener := LState.done, stopBuf := s.stopBuf ++ [e] }
  | sigArrive (s : Sys) (h : s.quit = false) :
      Step s L.sigArrive { s with quit := true }
  | recvStop (s : Sys) (e : String) (rest : List String)
      (h : s.coord = CState.waiting) (h2 : s.stopBuf = e :: rest) :
      Step s (L.recvStop e) { s with coord := CState.afterStop e, stopBuf := rest }
  | recvQuit (s : Sys) (h : s.coord = CState.waiting) (h2 : s.quit = true) :
      Step s L.recvQuit { s with coord := CState.afterQuit, quit := false }
  | stopReturn (s : Sys) (e : String) (h : s.coord = CState.afterStop e) :
      Step s (L.stopReturn e)
        { s with cancelled := true,
                 coord := CState.finished (some ("listen: " ++ e ++ "\n")) }
  | quitLogCancel (s : Sys) (h : s.coord = CState.afterQuit) :
      Step s L.quitLogCancel { s with cancelled := true, coord := CState.cancelledQuit }
  | startDrain (s : Sys) (h : s.coord = CState.cancelledQuit) :
      Step s L.startDrain { s with coord := CState.draining, shutdownCalled := true }
  | drainOk (s : Sys) (h : s.coord = CState.draining) :
      Step s L.drainOk { s with coord := CState.finished none }
  | drainTimeout (s : Sys) (h : s.coord = CState.draining) :
      Step s L.drainTimeout
        { s with coord :=
            CState.finished (some "server shutdown: context deadline exceeded") }

/-- Finite executions of the system: a chain of steps with its label
trace. -/
inductive Exec : Sys → List L → Sys → Prop where
  | nil (s : Sys) : Exec s [] s
  | cons {s s' s'' : Sys} {l : L} {ls : List L} :
      Step s l s' → Exec s' ls s'' → Exec s (l :: ls) s''

/-- The labels that consume a triggering event in the select. -/
def isRecv : L → Bool
  | L.recvStop _ => true
  | L.recvQuit => true
  | _ => false

/-- The label of the single call to http.Server.Shutdown (the drain). -/
def isDrainCall : L → Bool
  | L.startDrain => true
  | _ => false

/-- Number of triggering events consumed along a trace. -/
def countRecv (tr : List L) : Nat := (tr.filter isRecv).length

/-- Number of drain sequences started along a trace. -/
def countDrain (tr : List L) : Nat := (tr.filter isDrainCall).length

/-- 0 before the select has fired, 1 after. -/
def recvIdx (s : Sys) : Nat := if s.coord = CState.waiting then 0 else 1

/-- 0 before http.Server.Shutdown has been called, 1 after. -/
def drainIdx (s : Sys) : Nat := if s.shutdownCalled then 1 else 0

/-- Once the drain has been started the coordinator is in or past it. -/
def StInv (s : Sys) : Prop :=
  s.shutdownCalled = true → s.coord = CState.draining ∨ ∃ r, s.coord = CState.finished r

/-- Rank of the coordinator phases along the lifecycle. -/
def coordRank : CState → Nat
  | CState.waiting => 0
  | CState.afterStop _ => 1
  | CState.afterQuit => 1
  | CState.cancelledQuit => 2
  | CState.draining => 3
  | CState.finished _ => 4

/-- Invariant: wherever the coordinator has moved past the observation of
the winning event (logged-and-cancelled after quit, draining, or finished),
the cancel function has been invoked. -/
def CancelInv (s : Sys) : Prop :=
  (s.coord = CState.cancelledQuit ∨ s.coord = CState.draining ∨
    ∃ r, s.coord = CState.finished r) → s.cancelled = true

/-- Invariant of the one-slot stop channel: it is empty, or it holds the
single error of the listener goroutine, whose send has then completed. -/
def BufInv (s : Sys) : Prop :=
  s.stopBuf = [] ∨ ∃ e, s.stopBuf = [e] ∧ s.listener = LState.done

/-- Overwrite the cancellation flag of a state. -/
def setCancelled (s : Sys) (b : Bool) : Sys := { s with cancelled := b }

/-- The labels of transitions of the listener goroutine. -/
def isListenerLabel : L → Bool
  | L.listenFail _ => true
  | L.closedByShutdown => true
  | L.sendStop _ => true
  | _ => false

/-- Reading just past an allocation: the fresh object is at index length. -/
theorem heapGet_last {α : Type} (σ : Heap α) (m : List (String × α)) :
    heapGet (σ ++ [m]) σ.length = some m := by
  induction σ with
  | nil => rfl
  | cons x xs ih => simp [heapGet]

/-- Writing the freshly allocated last object replaces only it. -/
theorem heapSet_last {α : Type} (σ : Heap α) (m m' : List (String × α)) :
    heapSet (σ ++ [m]) σ.length m' = σ ++ [m'] := by
  induction σ with
  | nil => rfl
  | cons x xs ih =>
      simp only [heapSet, List.cons_append, List.length_cons, List.set_cons_succ] at ih ⊢
      exact congrArg (x :: ·) ih

/-- C4: ServeAutoCert with an empty domain sequence starts a plain listener
on the configured address; with a non-empty sequence it starts a TLS
listener whose host policy authorizes exactly the supplied domains, so any
other SNI host is rejected at the TLS layer. -/
theorem serveAutoCert_mode_selection :
    ∀ (addr d : String) (ds : List String),
      Serv.ServeAutoCert (Serv.New addr) [] = Serv.ListenerMode.plainHTTP addr ∧
      Serv.ServeAutoCert (Serv.New addr) (d :: ds) =
        Serv.ListenerMode.autoTLS addr (Serv.hostWhitelist (d :: ds)) ∧
      (∀ h, Serv.hostWhitelist (d :: ds) h = true ↔ h ∈ d :: ds) := by
  intro addr d ds
  refine ⟨rfl, rfl, ?_⟩
  intro h
  simp [Serv.hostWhitelist]

/-- The two error wraps of src/serv.go (fmt.Errorf "listen: %v\n" versus
fmt.Errorf "server shutdown: %s") never produce the same message, whatever
the underlying errors are: the fixed contexts differ at the first
character. -/
theorem listen_wrap_ne_shutdown_wrap (e e' : String) :
    "listen: " ++ e ++ "\n" ≠ "server shutdown: " ++ e' := by
  intro h
  have h2 := congrArg (fun s => s.data.head?) h
  simp [String.data_append] at h2

/-- C6 counterexample: in the part_000 revision, constructing the server
with a nil logger and a zero shutdown timeout yields exactly a nil logger
and a zero timeout, not operational defaults. -/
theorem zero_config_defaults_cex :
    ¬ ((Part0.New none ":4443" 0).logger ≠ none ∧
       0 < (Part0.New none ":4443" 0).timeoutServerShutdown) := by
  intro h
  exact h.1 rfl

/-- C6 (amended): in the serv.go revision New always installs a non-nil
stdout logger and a positive (one minute) shutdown timeout, and Config
treats a nil logger and a zero timeout as "keep the current value", so
zero-valued configuration inputs leave the defaults in place; the part_000
revision instead stores its logger and timeout arguments verbatim. -/
theorem zero_config_defaults :
    ∀ (addr : String),
      (Serv.New addr).logger = some Serv.defaultLogger ∧
      0 < (Serv.New addr).timeoutShutdown ∧
      (Serv.Config (Serv.New addr) none 0).logger = some Serv.defaultLogger ∧
      (Serv.Config (Serv.New addr) none 0).timeoutShutdown = minute ∧
      0 < minute ∧
      (∀ s : Serv.ServHTTP, Serv.Config s none 0 = s) ∧
      (∀ (lg : Option GoLogger) (t : Int),
        (Part0.New lg ":4443" t).logger = lg ∧
        (Part0.New lg ":4443" t).timeoutServerShutdown = t) := by
  intro addr
  refine ⟨rfl, ?_, rfl, rfl, ?_, ?_, fun lg t => ⟨rfl, rfl⟩⟩
  · show (0 : Int) < minute
    decide
  · decide
  · intro s
    simp [Serv.Config]

/-- C9: after AddAuthFunc(f, redirectUrl), a request whose path equals
redirectUrl is passed to the previously installed handler even when f
rejects it; a request on any other path that f rejects receives a 307
redirect to redirectUrl and its result does not depend on the installed
handler (the handler is never reached); and a request f accepts is passed
to the previously installed handler. -/
theorem addAuthFunc_spec :
    ∀ (α : Type) (s : Serv.ServState α) (f : Serv.Request → Bool) (url : String)
      (r : Serv.Request),
      Serv.statusTemporaryRedirect = 307 ∧
      (r.urlPath = url → (Serv.AddAuthFunc s f url).handler r = s.handler r) ∧
      (f r = true → (Serv.AddAuthFunc s f url).handler r = s.handler r) ∧
      (r.urlPath ≠ url → f r = false →
        (Serv.AddAuthFunc s f url).handler r = Serv.Resp.redirect 307 url ∧
        (∀ s2 : Serv.ServState α,
          (Serv.AddAuthFunc s2 f url).handler r = Serv.Resp.redirect 307 url)) := by
  intro α s f url r
  refine ⟨rfl, ?_, ?_, ?_⟩
  · intro hpath
    simp [Serv.AddAuthFunc, hpath]
  · intro hf
    simp [Serv.AddAuthFunc, hf]
  · intro hpath hf
    constructor
    · simp [Serv.AddAuthFunc, hpath, hf, Serv.statusTemporaryRedirect]
    · intro s2
      simp [Serv.AddAuthFunc, hpath, hf, Serv.statusTemporaryRedirect]

/-- C9 witness: concrete instances of each branch of addAuthFunc_spec. -/
theorem addAuthFunc_spec_witness :
    (Serv.AddAuthFunc ⟨Serv.New ":4443", fun _ => Serv.Resp.result 7⟩
        (fun _ => false) "/login").handler ⟨"/login", 0⟩ = Serv.Resp.result 7 ∧
    (Serv.AddAuthFunc ⟨Serv.New ":4443", fun _ => Serv.Resp.result 7⟩
        (fun _ => false) "/login").handler ⟨"/data", 0⟩ =
      Serv.Resp.redirect 307 "/login" ∧
    (Serv.AddAuthFunc ⟨Serv.New ":4443", fun _ => Serv.Resp.result 7⟩
        (fun _ => true) "/login").handler ⟨"/data", 0⟩ = Serv.Resp.result 7 := by
  refine ⟨?_, ?_, ?_⟩
  · exact (addAuthFunc_spec Nat ⟨Serv.New ":4443", fun _ => Serv.Resp.result 7⟩
      (fun _ => false) "/login" ⟨"/login", 0⟩).2.1 rfl
  · exact ((addAuthFunc_spec Nat ⟨Serv.New ":4443", fun _ => Serv.Resp.result 7⟩
      (fun _ => false) "/login" ⟨"/data", 0⟩).2.2.2 (by decide) rfl).1
  · exact (addAuthFunc_spec Nat ⟨Serv.New ":4443", fun _ => Serv.Resp.result 7⟩
      (fun _ => true) "/login" ⟨"/data", 0⟩).2.2.1 rfl

/-- C1 counterexample: when the select is won by an error on the Stop
channel, the coordinator of src/serv.go returns at once; its action trace
contains no call to the graceful stop (http.Server.Shutdown), contradicting
the claim that the graceful-stop sequence is still attempted. -/
theorem listen_failure_graceful_stop_cex :
    Serv.SAct.callServerShutdown ∉
      (Serv.shutdownServ
        (Serv.Ev.listenErr "listen tcp :4443: bind: address already in use")
        none).1 := by
  simp [Serv.shutdownServ]

/-- C1 (amended): when the triggering event is a listener failure, the
coordinator skips the graceful-stop sequence entirely and immediately
propagates the original listen error wrapped with context ("listen: "),
never a stop error ("server shutdown: "), whatever the drain outcome would
have been. -/
theorem listen_failure_propagates_listen_error :
    ∀ (e : String) (drain : Option String),
      Serv.SAct.callServerShutdown ∉ (Serv.shutdownServ (Serv.Ev.listenErr e) drain).1 ∧
      (Serv.shutdownServ (Serv.Ev.listenErr e) drain).2 =
        some ("listen: " ++ e ++ "\n") ∧
      (∀ e', (Serv.shutdownServ (Serv.Ev.listenErr e) drain).2 ≠
        some ("server shutdown: " ++ e')) := by
  intro e drain
  refine ⟨by simp [Serv.shutdownServ], rfl, ?_⟩
  intro e' h
  simp [Serv.shutdownServ] at h
  exact listen_wrap_ne_shutdown_wrap e e' h

/-- C5: after an OS termination request, if the graceful stop completes
within the shutdown timeout the coordinator returns no error and logs
completion, and the caller returns normally; if the stop call reports the
deadline error, the coordinator returns it wrapped with the
"server shutdown: " context — a wrap never equal to a listen-error wrap —
and the caller terminates fatally, logging that error. -/
theorem drain_outcome_spec :
    ∀ (e : String),
      (Serv.shutdownServ Serv.Ev.osSignal none).2 = none ∧
      Serv.SAct.logMsg "server shut down" ∈ (Serv.shutdownServ Serv.Ev.osSignal none).1 ∧
      Serv.serveAndShutdownServ Serv.Ev.osSignal none = Serv.ProcExit.normal ∧
      (Serv.shutdownServ Serv.Ev.osSignal (some e)).2 =
        some ("server shutdown: " ++ e) ∧
      Serv.serveAndShutdownServ Serv.Ev.osSignal (some e) =
        Serv.ProcExit.fatal ("server shutdown: " ++ e) ∧
      (∀ e', "server shutdown: " ++ e ≠ "listen: " ++ e' ++ "\n") := by
  intro e
  refine ⟨rfl, by simp [Serv.shutdownServ], rfl, rfl, rfl, ?_⟩
  intro e' h
  exact listen_wrap_ne_shutdown_wrap e' e h.symm

/-- Looking up a key right after the Go map assignment of that key yields
the assigned value. -/
theorem assocLookup_update_self {α : Type} (m : List (String × α))
    (k : String) (v : α) : assocLookup (assocUpdate m k v) k = some v := by
  induction m with
  | nil => simp [assocUpdate, assocLookup]
  | cons kv rest ih =>
      by_cases h : kv.1 = k
      · simp [assocUpdate, assocLookup, h]
      · simp [assocUpdate, assocLookup, h, ih]

/-- C3 counterexample: registering the same pattern twice directly on the
server (AddHandleFunc, delegating to net/http ServeMux.Handle) does raise
an error at a concrete input — the duplicate-registration panic — so the
second registration never takes effect on that path. -/
theorem duplicate_pattern_overwrites_cex :
    Serv.AddHandleFunc [("/", (1 : Nat))] "/" 2 =
      Except.error "http: multiple registrations for /" := by
  rfl

/-- C3 (amended): registering the same pattern twice through the detached
handler map raises no error and only the second registration takes effect
— HandlersRegistration then serves that pattern with the later handler —
whereas registering the same pattern twice directly on the server through
AddHandle/AddHandleFunc panics with the ServeMux duplicate-registration
error, so on that path the second registration raises an error and does
not take effect (a fresh first registration of a non-empty pattern still
succeeds). -/
theorem duplicate_pattern_overwrites :
    ∀ (α : Type) (σ : Heap α) (m : List (String × α)) (p : String) (h1 h2 : α),
      HandlerMap.NewHandler σ = (σ ++ [[]], σ.length) ∧
      HandlerMap.Add (σ ++ [[]]) (some σ.length) p h1 =
        Except.ok (σ ++ [[(p, h1)]]) ∧
      HandlerMap.Add (σ ++ [[(p, h1)]]) (some σ.length) p h2 =
        Except.ok (σ ++ [[(p, h2)]]) ∧
      HandlersRegistration (σ ++ [[(p, h2)]]) (some σ.length) p = some h2 ∧
      (p ≠ "" → assocLookup m p = none →
        Serv.AddHandle m p h1 = Except.ok (assocUpdate m p h1) ∧
        Serv.AddHandleFunc (assocUpdate m p h1) p h2 =
          Except.error ("http: multiple registrations for " ++ p)) := by
  intro α σ m p h1 h2
  refine ⟨rfl, ?_, ?_, ?_, ?_⟩
  · simp [HandlerMap.Add, heapGet_last, heapSet_last, assocUpdate]
  · simp [HandlerMap.Add, heapGet_last, heapSet_last, assocUpdate]
  · simp [HandlersRegistration, rangeEntries, heapGet_last, assocLookup]
  · intro hp hnone
    constructor
    · simp [Serv.AddHandle, Serv.serveMuxHandle, hp, hnone]
    · simp [Serv.AddHandleFunc, Serv.serveMuxHandle, hp, assocLookup_update_self]

/-- C3 witness: concrete instances — the map path overwrites without error
and the mux path first succeeds then panics on the duplicate. -/
theorem duplicate_pattern_overwrites_witness :
    HandlerMap.Add ([[]] : Heap Nat) (some 0) "/" 1 = Except.ok [[("/", 1)]] ∧
    HandlersRegistration ([[("/", (2 : Nat))]] : Heap Nat) (some 0) "/" = some 2 ∧
    Serv.AddHandle ([] : List (String × Nat)) "/" 1 = Except.ok [("/", 1)] ∧
    Serv.AddHandleFunc [("/", (1 : Nat))] "/" 2 =
      Except.error "http: multiple registrations for /" := by
  have h := duplicate_pattern_overwrites Nat [] [] "/" 1 2
  have hm := h.2.2.2.2 (by decide) rfl
  exact ⟨h.2.1, h.2.2.2.1, hm.1, hm.2⟩

/-- C10: Add on a nil handler map does not panic (it returns normally) and
has no effect observable through the caller: the freshly allocated map is
reachable only through the discarded local copy, every previously
allocated map object is unchanged (the heap below the old length is
untouched), ranging over the caller map still visits nothing, and a later
HandlersRegistration of the caller map registers nothing for the
pattern. -/
theorem nil_map_add_no_effect :
    ∀ (α : Type) (σ : Heap α) (p : String) (v : α),
      HandlerMap.Add σ none p v = Except.ok (σ ++ [[(p, v)]]) ∧
      (σ ++ [[(p, v)]]).take σ.length = σ ∧
      rangeEntries (σ ++ [[(p, v)]]) (none : Option Nat) = [] ∧
      HandlersRegistration (σ ++ [[(p, v)]]) (none : Option Nat) p = none := by
  intro α σ p v
  refine ⟨?_, ?_, rfl, rfl⟩
  · simp [HandlerMap.Add, HandlerMap.NewHandler, heapGet_last, heapSet_last, assocUpdate]
  · exact List.take_left σ [[(p, v)]]

/-- Filtering the recv labels, unfolded over a cons. -/
theorem countRecv_cons (l : L) (ls : List L) :
    countRecv (l :: ls) = (if isRecv l then 1 else 0) + countRecv ls := by
  by_cases h : isRecv l <;> simp [countRecv, List.filter_cons, h, Nat.add_comm]

/-- Filtering the drain label, unfolded over a cons. -/
theorem countDrain_cons (l : L) (ls : List L) :
    countDrain (l :: ls) = (if isDrainCall l then 1 else 0) + countDrain ls := by
  by_cases h : isDrainCall l <;> simp [countDrain, List.filter_cons, h, Nat.add_comm]

/-- Every step raises the recv index exactly by its number of recv labels:
the select fires only from the waiting phase, and no step returns to it. -/
theorem step_recvIdx {s : Sys} {l : L} {s' : Sys} (h : Step s l s') :
    recvIdx s' = recvIdx s + (if isRecv l then 1 else 0) := by
  cases h with
  | listenFail e hl => simp [recvIdx, isRecv]
  | closedByShutdown hl h2 => simp [recvIdx, isRecv]
  | sendStop e hl h2 => simp [recvIdx, isRecv]
  | sigArrive hq => simp [recvIdx, isRecv]
  | recvStop e rest hc h2 => simp [recvIdx, isRecv, hc]
  | recvQuit hc h2 => simp [recvIdx, isRecv, hc]
  | stopReturn e hc => simp [recvIdx, isRecv, hc]
  | quitLogCancel hc => simp [recvIdx, isRecv, hc]
  | startDrain hc => simp [recvIdx, isRecv, hc]
  | drainOk hc => simp [recvIdx, isRecv, hc]
  | drainTimeout hc => simp [recvIdx, isRecv, hc]

/-- Under the phase invariant, every step raises the drain index exactly by
its number of drain labels: http.Server.Shutdown is called only on the
unique transition out of the cancelledQuit phase. -/
theorem step_drainIdx {s : Sys} {l : L} {s' : Sys} (h : Step s l s')
    (hi : StInv s) :
    drainIdx s' = drainIdx s + (if isDrainCall l then 1 else 0) := by
  cases h with
  | listenFail e hl => simp [drainIdx, isDrainCall]
  | closedByShutdown hl h2 => simp [drainIdx, isDrainCall]
  | sendStop e hl h2 => simp [drainIdx, isDrainCall]
  | sigArrive hq => simp [drainIdx, isDrainCall]
  | recvStop e rest hc h2 => simp [drainIdx, isDrainCall]
  | recvQuit hc h2 => simp [drainIdx, isDrainCall]
  | stopReturn e hc => simp [drainIdx, isDrainCall]
  | quitLogCancel hc => simp [drainIdx, isDrainCall]
  | startDrain hc =>
      have hsc : s.shutdownCalled = false := by
        cases hsc : s.shutdownCalled
        · rfl
        · rcases hi hsc with h1 | ⟨r, h1⟩ <;> simp [hc] at h1
      simp [drainIdx, isDrainCall, hsc]
  | drainOk hc => simp [drainIdx, isDrainCall]
  | drainTimeout hc => simp [drainIdx, isDrainCall]

/-- The phase invariant is preserved by every step. -/
theorem step_StInv {s : Sys} {l : L} {s' : Sys} (h : Step s l s')
    (hi : StInv s) : StInv s' := by
  cases h with
  | listenFail e hl => exact hi
  | closedByShutdown hl h2 => exact hi
  | sendStop e hl h2 => exact hi
  | sigArrive hq => exact hi
  | recvStop e rest hc h2 =>
      intro hsc
      rcases hi hsc with h1 | ⟨r, h1⟩ <;> simp [hc] at h1
  | recvQuit hc h2 =>
      intro hsc
      rcases hi hsc with h1 | ⟨r, h1⟩ <;> simp [hc] at h1
  | stopReturn e hc =>
      intro hsc
      exact Or.inr ⟨_, rfl⟩
  | quitLogCancel hc =>
      intro hsc
      rcases hi hsc with h1 | ⟨r, h1⟩ <;> simp [hc] at h1
  | startDrain hc =>
      intro hsc
      exact Or.inl rfl
  | drainOk hc =>
      intro hsc
      exact Or.inr ⟨_, rfl⟩
  | drainTimeout hc =>
      intro hsc
      exact Or.inr ⟨_, rfl⟩

/-- Along any execution the consumed events and the started drains are
measured exactly by the recv and drain indices of the endpoints. -/
theorem exec_counts : ∀ {s : Sys} {tr : List L} {s' : Sys}, Exec s tr s' →
    StInv s →
    recvIdx s + countRecv tr = recvIdx s' ∧
    drainIdx s + countDrain tr = drainIdx s' ∧ StInv s' := by
  intro s tr s' h
  induction h with
  | nil s =>
      intro hi
      exact ⟨by simp [countRecv], by simp [countDrain], hi⟩
  | cons hstep hexec ih =>
      intro hi
      have hi' := step_StInv hstep hi
      obtain ⟨h1, h2, h3⟩ := ih hi'
      have e1 := step_recvIdx hstep
      have e2 := step_drainIdx hstep hi
      refine ⟨?_, ?_, h3⟩
      · rw [countRecv_cons]
        omega
      · rw [countDrain_cons]
        omega

/-- The cancellation invariant is preserved by every step: both select
branches invoke cancel before moving on. -/
theorem step_CancelInv {s : Sys} {l : L} {s' : Sys} (h : Step s l s')
    (hi : CancelInv s) : CancelInv s' := by
  cases h with
  | listenFail e hl => exact hi
  | closedByShutdown hl h2 => exact hi
  | sendStop e hl h2 => exact hi
  | sigArrive hq => exact hi
  | recvStop e rest hc h2 =>
      intro hd
      rcases hd with h1 | h1 | ⟨r, h1⟩ <;> simp at h1
  | recvQuit hc h2 =>
      intro hd
      rcases hd with h1 | h1 | ⟨r, h1⟩ <;> simp at h1
  | stopReturn e hc =>
      intro hd
      rfl
  | quitLogCancel hc =>
      intro hd
      rfl
  | startDrain hc =>
      intro hd
      exact hi (Or.inl hc)
  | drainOk hc =>
      intro hd
      exact hi (Or.inr (Or.inl hc))
  | drainTimeout hc =>
      intro hd
      exact hi (Or.inr (Or.inl hc))

/-- The cancellation invariant holds along every execution from a state
satisfying it. -/
theorem exec_CancelInv : ∀ {s : Sys} {tr : List L} {s' : Sys},
    Exec s tr s' → CancelInv s → CancelInv s' := by
  intro s tr s' h
  induction h with
  | nil s => exact id
  | cons hstep hexec ih => exact fun hi => ih (step_CancelInv hstep hi)

/-- The channel invariant is preserved by every step: the single producer
sends once into an empty one-slot buffer, the single consumer empties it. -/
theorem step_BufInv {s : Sys} {l : L} {s' : Sys} (h : Step s l s')
    (hi : BufInv s) : BufInv s' := by
  cases h with
  | listenFail e hl =>
      rcases hi with h1 | ⟨e', hb, hd⟩
      · exact Or.inl h1
      · rw [hl] at hd
        cases hd
  | closedByShutdown hl h2 =>
      rcases hi with h1 | ⟨e', hb, hd⟩
      · exact Or.inl h1
      · rw [hl] at hd
        cases hd
  | sendStop e hl h2 =>
      have hnil : s.stopBuf = [] := by
        rcases hi with h1 | ⟨e', hb, hd⟩
        · exact h1
        · rw [hl] at hd
          cases hd
      exact Or.inr ⟨e, by simp [hnil], rfl⟩
  | sigArrive hq => exact hi
  | recvStop e rest hc h2 =>
      rcases hi with h1 | ⟨e', hb, hd⟩
      · rw [h1] at h2
        cases h2
      · rw [hb] at h2
        have : rest = [] := (List.cons.injEq _ _ _ _ ▸ h2).2.symm
        exact Or.inl (by simp [this])
  | recvQuit hc h2 => exact hi
  | stopReturn e hc => exact hi
  | quitLogCancel hc => exact hi
  | startDrain hc => exact hi
  | drainOk hc => exact hi
  | drainTimeout hc => exact hi

/-- The channel invariant holds along every execution from a state
satisfying it. -/
theorem exec_BufInv : ∀ {s : Sys} {tr : List L} {s' : Sys},
    Exec s tr s' → BufInv s → BufInv s' := by
  intro s tr s' h
  induction h with
  | nil s => exact id
  | cons hstep hexec ih => exact fun hi => ih (step_BufInv hstep hi)

/-- C2: along every execution of the lifecycle, whatever the number and
order of termination requests and listener failures, the coordinator
consumes at most one triggering event — exactly one whenever it reaches
the finished phase — and starts the drain sequence at most once; moreover
every step keeps the coordinator phase rank non-decreasing and strictly
increases it whenever the phase changes, so no lifecycle state is ever
re-entered. -/
theorem shutdown_at_most_once :
    (∀ (tr : List L) (s' : Sys), Exec initSys tr s' →
      countRecv tr ≤ 1 ∧ countDrain tr ≤ 1 ∧
      (∀ r, s'.coord = CState.finished r → countRecv tr = 1)) ∧
    (∀ (s : Sys) (l : L) (s' : Sys), Step s l s' →
      coordRank s.coord ≤ coordRank s'.coord ∧
      (s'.coord ≠ s.coord → coordRank s.coord < coordRank s'.coord)) := by
  constructor
  · intro tr s' h
    have hinit : StInv initSys := by
      intro hsc
      exact absurd hsc (by decide)
    obtain ⟨h1, h2, _⟩ := exec_counts h hinit
    have hr : recvIdx initSys = 0 := rfl
    have hd : drainIdx initSys = 0 := rfl
    rw [hr] at h1
    rw [hd] at h2
    have hb1 : recvIdx s' ≤ 1 := by
      unfold recvIdx
      split <;> omega
    have hb2 : drainIdx s' ≤ 1 := by
      unfold drainIdx
      split <;> omega
    refine ⟨by omega, by omega, ?_⟩
    intro r hc
    have : recvIdx s' = 1 := by simp [recvIdx, hc]
    omega
  · intro s l s' hstep
    cases hstep with
    | listenFail e hl => exact ⟨Nat.le_refl _, fun hne => absurd rfl hne⟩
    | closedByShutdown hl h2 => exact ⟨Nat.le_refl _, fun hne => absurd rfl hne⟩
    | sendStop e hl h2 => exact ⟨Nat.le_refl _, fun hne => absurd rfl hne⟩
    | sigArrive hq => exact ⟨Nat.le_refl _, fun hne => absurd rfl hne⟩
    | recvStop e rest hc h2 => simp [hc, coordRank]
    | recvQuit hc h2 => simp [hc, coordRank]
    | stopReturn e hc => simp [hc, coordRank]
    | quitLogCancel hc => simp [hc, coordRank]
    | startDrain hc => simp [hc, coordRank]
    | drainOk hc => simp [hc, coordRank]
    | drainTimeout hc => simp [hc, coordRank]

/-- C2 witness: a complete signal-triggered lifecycle run consumes exactly
one event and drains exactly once. -/
theorem shutdown_at_most_once_witness :
    countRecv [L.sigArrive, L.recvQuit, L.quitLogCancel, L.startDrain, L.drainOk] ≤ 1 ∧
    countDrain [L.sigArrive, L.recvQuit, L.quitLogCancel, L.startDrain, L.drainOk] ≤ 1 ∧
    countRecv [L.sigArrive, L.recvQuit, L.quitLogCancel, L.startDrain, L.drainOk] = 1 := by
  have hexec : Exec initSys
      [L.sigArrive, L.recvQuit, L.quitLogCancel, L.startDrain, L.drainOk]
      { listener := LState.serving, stopBuf := [], quit := false, cancelled := true,
        coord := CState.finished none, shutdownCalled := true } :=
    Exec.cons (Step.sigArrive initSys rfl)
      (Exec.cons (Step.recvQuit _ rfl rfl)
        (Exec.cons (Step.quitLogCancel _ rfl)
          (Exec.cons (Step.startDrain _ rfl)
            (Exec.cons (Step.drainOk _ rfl) (Exec.nil _)))))
  have h := shutdown_at_most_once.1 _ _ hexec
  exact ⟨h.1, h.2.1, h.2.2 none rfl⟩

/-- C7 counterexample: right after the coordinator has observed the winning
event (an OS termination request) and invoked cancel, the listener
goroutine is still serving — background listener work continues past the
shutdown decision, because the context created in ServeAndShutdown is
discarded and never reaches the listener. -/
theorem cancellation_stops_listener_cex :
    Exec initSys [L.sigArrive, L.recvQuit, L.quitLogCancel]
      { listener := LState.serving, stopBuf := [], quit := false, cancelled := true,
        coord := CState.cancelledQuit, shutdownCalled := false } ∧
    ({ listener := LState.serving, stopBuf := [], quit := false, cancelled := true,
       coord := CState.cancelledQuit, shutdownCalled := false } : Sys).cancelled = true ∧
    ({ listener := LState.serving, stopBuf := [], quit := false, cancelled := true,
       coord := CState.cancelledQuit, shutdownCalled := false } : Sys).listener =
      LState.serving := by
  refine ⟨?_, rfl, rfl⟩
  exact Exec.cons (Step.sigArrive initSys rfl)
    (Exec.cons (Step.recvQuit _ rfl rfl)
      (Exec.cons (Step.quitLogCancel _ rfl) (Exec.nil _)))

/-- C7 (amended): upon observing the winning event the coordinator does
invoke the cancel function in both branches — whenever it is at or past
the post-observation phases, cancel has been invoked — but the context it
cancels is created and discarded in ServeAndShutdown and is never passed
to the listener: every listener transition is independent of the
cancellation flag, so cancellation itself does not stop background
listener work. -/
theorem cancel_invoked_but_unobserved :
    (∀ (tr : List L) (s' : Sys), Exec initSys tr s' →
      (s'.coord = CState.cancelledQuit ∨ s'.coord = CState.draining ∨
        (∃ r, s'.coord = CState.finished r)) → s'.cancelled = true) ∧
    (∀ (s : Sys) (l : L) (s' : Sys) (b : Bool), Step s l s' →
      isListenerLabel l = true → Step (setCancelled s b) l (setCancelled s' b)) := by
  constructor
  · intro tr s' h hd
    have hinit : CancelInv initSys := by
      intro hd0
      rcases hd0 with h1 | h1 | ⟨r, h1⟩ <;> simp [initSys] at h1
    exact exec_CancelInv h hinit hd
  · intro s l s' b hstep hl
    cases hstep with
    | listenFail e h => exact Step.listenFail (setCancelled s b) e h
    | closedByShutdown h h2 => exact Step.closedByShutdown (setCancelled s b) h h2
    | sendStop e h h2 => exact Step.sendStop (setCancelled s b) e h h2
    | sigArrive h => simp [isListenerLabel] at hl
    | recvStop e rest h h2 => simp [isListenerLabel] at hl
    | recvQuit h h2 => simp [isListenerLabel] at hl
    | stopReturn e h => simp [isListenerLabel] at hl
    | quitLogCancel h => simp [isListenerLabel] at hl
    | startDrain h => simp [isListenerLabel] at hl
    | drainOk h => simp [isListenerLabel] at hl
    | drainTimeout h => simp [isListenerLabel] at hl

/-- C7 amended witness: cancel has fired in the concrete post-observation
state, and a concrete listener failure steps identically whatever the
cancellation flag. -/
theorem cancel_invoked_but_unobserved_witness :
    ({ listener := LState.serving, stopBuf := [], quit := false, cancelled := true,
       coord := CState.cancelledQuit, shutdownCalled := false } : Sys).cancelled = true ∧
    Step (setCancelled initSys true) (L.listenFail "boom")
      (setCancelled { initSys with listener := LState.returned "boom" } true) := by
  constructor
  · refine cancel_invoked_but_unobserved.1 [L.sigArrive, L.recvQuit, L.quitLogCancel] _
      ?_ (Or.inl rfl)
    exact Exec.cons (Step.sigArrive initSys rfl)
      (Exec.cons (Step.recvQuit _ rfl rfl)
        (Exec.cons (Step.quitLogCancel _ rfl) (Exec.nil _)))
  · exact cancel_invoked_but_unobserved.2 initSys (L.listenFail "boom") _ true
      (Step.listenFail initSys "boom" rfl) rfl

/-- C8: the stop channel has capacity exactly one (both revisions), a
listener failure produced while the coordinator has not yet received it
always finds the buffer empty — so the send never blocks and the failure
is never lost — and a failure emitted before the coordinator begins its
wait is indeed observed later by the select, which returns the wrapped
listen error. -/
theorem stop_channel_never_loses_failure :
    stopChanCap = 1 ∧
    (Serv.New ":4443").stopCap = 1 ∧
    (∀ (tr : List L) (s' : Sys) (e : String), Exec initSys tr s' →
      s'.listener = LState.returned e →
      s'.stopBuf = [] ∧ s'.stopBuf.length < stopChanCap) ∧
    (∀ e : String,
      Exec initSys [L.listenFail e, L.sendStop e, L.recvStop e, L.stopReturn e]
        { listener := LState.done, stopBuf := [], quit := false, cancelled := true,
          coord := CState.finished (some ("listen: " ++ e ++ "\n")),
          shutdownCalled := false }) := by
  refine ⟨rfl, rfl, ?_, ?_⟩
  · intro tr s' e h hret
    have hinit : BufInv initSys := Or.inl rfl
    have hb := exec_BufInv h hinit
    have hnil : s'.stopBuf = [] := by
      rcases hb with h1 | ⟨e', hb1, hd⟩
      · exact h1
      · rw [hret] at hd
        cases hd
    exact ⟨hnil, by simp [hnil, stopChanCap]⟩
  · intro e
    exact Exec.cons (Step.listenFail initSys e rfl)
      (Exec.cons (Step.sendStop _ e rfl (by simp [initSys, stopChanCap]))
        (Exec.cons (Step.recvStop _ e [] rfl rfl)
          (Exec.cons (Step.stopReturn _ e rfl) (Exec.nil _))))

/-- C8 witness: concrete instance of the never-lost property after a
concrete failure step. -/
theorem stop_channel_never_loses_failure_witness :
    ({ initSys with listener := LState.returned "boom" } : Sys).stopBuf = [] ∧
    ({ initSys with listener := LState.returned "boom" } : Sys).stopBuf.length <
      stopChanCap := by
  exact stop_channel_never_loses_failure.2.2.1 [L.listenFail "boom"] _ "boom"
    (Exec.cons (Step.listenFail initSys "boom" rfl) (Exec.nil _)) rfl
